import Mathlib

/-!
# Scan service of bearded: create, get, delete and TakeScan

Shallow embedding of `src/services/scan/scan_service.go`.

The handlers talk to collaborators that live outside the service file: the
manager layer (`mgr.Projects`, `mgr.Targets`, `mgr.Plans`, `mgr.Plugins`,
`mgr.Scans`, `mgr.NewId`, `mgr.IsNotFound`), the id predicate `s.IsId`, the
request decoder and the clock.  They are parameters of the embedding: a
`Manager σ` is a record of functions over an abstract store state `σ`.  Every
collaborator call made by a handler is recorded, in program order, in a call
log, so that "is not consulted" and "is never invoked" are statements about
that log.  `mgr.Close()` only releases the per-request store handle and is
left out.
-/

set_option autoImplicit false

namespace Bearded

/-! ## Data model (the fields the service reads or writes) -/

/-- Store identifiers (`bson.ObjectId`), kept as strings. -/
abbrev ObjectId := String

/-- Instants returned by `time.Now()`. -/
abbrev Time := Nat

/-- The authenticated caller, `filters.GetUser(req)`. -/
structure User where
  Id : ObjectId
  deriving DecidableEq, Repr

structure Project where
  Id : ObjectId
  deriving DecidableEq, Repr

/-- A target; `Typ` is the Go field `Type`, `Addr` the value of `target.Addr()`. -/
structure Target where
  Id : ObjectId
  Project : ObjectId
  Typ : String
  Addr : String
  deriving DecidableEq, Repr

/-- One entry of a plan workflow; `Plugin` is the `name:version` reference. -/
structure WorkflowStep where
  Plugin : String
  Name : String
  Desc : String
  deriving DecidableEq, Repr

structure Plan where
  Id : ObjectId
  TargetType : String
  Workflow : List WorkflowStep
  deriving DecidableEq, Repr

structure Plugin where
  Id : ObjectId
  Name : String
  Version : String
  deriving DecidableEq, Repr

/-- Status vocabulary; the service only ever writes `StatusCreated`. -/
inductive ScanStatus where
  | StatusCreated
  | other (name : String)
  deriving DecidableEq, Repr

/-- Timestamps; the Go fields are pointers, `none` is the nil pointer. -/
structure Dates where
  Created : Option Time
  Updated : Option Time
  deriving DecidableEq, Repr

structure Session where
  Id : ObjectId
  Step : WorkflowStep
  Plugin : ObjectId
  Status : ScanStatus
  Dates : Dates
  deriving DecidableEq, Repr

structure ScanConf where
  Target : String
  deriving DecidableEq, Repr

structure Scan where
  Id : ObjectId
  Status : ScanStatus
  Owner : ObjectId
  Plan : ObjectId
  Project : ObjectId
  Target : ObjectId
  Conf : ScanConf
  Sessions : List Session
  deriving DecidableEq, Repr

/-! ## Errors, responses and the call log -/

/-- Errors a manager call can return; `mgr.IsNotFound` and `mgr.IsDup` classify them. -/
inductive Err where
  | notFound
  | dup
  | other (msg : String)
  deriving DecidableEq, Repr

/-- Service errors of package `services` written by `WriteServiceError`. -/
inductive ServiceError where
  | NewBadReq (msg : String)
  | DbErr
  | IdHexErr
  | WrongEntityErr
  deriving DecidableEq, Repr

def StatusCreatedCode : Nat := 201
def StatusOK : Nat := 200
def StatusNoContent : Nat := 204
def StatusBadRequest : Nat := 400
def StatusNotFound : Nat := 404
def StatusInternalServerError : Nat := 500

/-- What a handler wrote to `resp`. -/
inductive Response where
  | WriteServiceError (status : Nat) (err : ServiceError)
  | WriteErrorString (status : Nat) (msg : String)
  | WriteEntity (status : Nat) (obj : Scan)
  | WriteHeader (status : Nat)
  deriving DecidableEq, Repr

/-- How a handler run ends: it wrote a response, or it left by a run-time
panic (slice index out of range) before writing one. -/
inductive Outcome where
  | respond (r : Response)
  | panicIndexOutOfRange
  deriving DecidableEq, Repr

/-- One collaborator call, as it appears in the handler text. -/
inductive Call where
  | ProjectsGetById (id : ObjectId)
  | TargetsGetById (id : ObjectId)
  | PlansGetById (id : ObjectId)
  | PluginsGetByNameVersion (name version : String)
  | NewId
  | ScansCreate (sc : Scan)
  | ScansGetById (id : String)
  | ScansRemove (obj : Scan)
  deriving DecidableEq, Repr

/-- The manager layer as seen by the service: lookups read the store state,
`ScansCreate` and `ScansRemove` may change it, `NewId` draws the n-th fresh id. -/
structure Manager (σ : Type) where
  ProjectsGetById : σ → ObjectId → Except Err Project
  TargetsGetById : σ → ObjectId → Except Err Target
  PlansGetById : σ → ObjectId → Except Err Plan
  PluginsGetByNameVersion : σ → String → String → Except Err Plugin
  NewId : Nat → ObjectId
  ScansCreate : σ → Scan → Except Err Scan × σ
  ScansGetById : σ → String → Except Err Scan
  ScansRemove : σ → Scan → Option Err × σ
  IsId : String → Bool

/-- The test `mgr.IsNotFound(err)`. -/
def IsNotFound : Err → Bool
  | .notFound => true
  | _ => false

/-- Result of running a handler: the outcome, the store state and id counter
after the run, and the collaborator calls made, in order. -/
structure Run (σ : Type) where
  out : Outcome
  db : σ
  fresh : Nat
  calls : List Call

/-! ## `strings.Split` with a one-character separator -/

/-- Splitting a character list at every occurrence of `sep`; the result is
never empty and has one more piece than there are separators. -/
def splitChars (sep : Char) : List Char → List (List Char)
  | [] => [[]]
  | c :: cs =>
    if c = sep then [] :: splitChars sep cs
    else
      match splitChars sep cs with
      | [] => [[c]]
      | p :: ps => (c :: p) :: ps

/-- Model of `strings.Split(s, sep)` for a separator of one character. -/
def Split (s : String) (sep : Char) : List String :=
  (splitChars sep s.data).map String.mk

/-- The message `fmt.Sprintf("plugin %s is not found", ref)`. -/
def pluginNotFoundMsg (ref : String) : String :=
  "plugin " ++ ref ++ " is not found"

/-! ## `ScanService.create` -/

/-- State of the loop over `plan.Workflow`: either the handler has already
returned (`abort`), or the loop ran to its end (`done`). -/
inductive Loop where
  | abort (out : Outcome) (fresh : Nat) (calls : List Call)
  | done (sessions : List Session) (fresh : Nat) (calls : List Call)
  deriving DecidableEq, Repr

/-- The `for _, step := range plan.Workflow` loop of `create` (lines 175-201):
`sessions` is `sc.Sessions` so far, `fresh` the id counter, `calls` the log. -/
def sessionsLoop {σ : Type} (m : Manager σ) (db : σ) (now : Time) :
    List WorkflowStep → List Session → Nat → List Call → Loop
  | [], sessions, fresh, calls => .done sessions fresh calls
  | step :: rest, sessions, fresh, calls =>
    let plNameVersion := Split step.Plugin ':'
    match plNameVersion[0]?, plNameVersion[1]? with
    | some name, some version =>
      match m.PluginsGetByNameVersion db name version with
      | .error err =>
        if IsNotFound err then
          .abort (.respond (.WriteServiceError StatusBadRequest
            (.NewBadReq (pluginNotFoundMsg step.Plugin)))) fresh
            (calls ++ [.PluginsGetByNameVersion name version])
        else
          .abort (.respond (.WriteServiceError StatusInternalServerError .DbErr)) fresh
            (calls ++ [.PluginsGetByNameVersion name version])
      | .ok plugin =>
        let sess : Session :=
          { Id := m.NewId fresh
            Step := step
            Plugin := plugin.Id
            Status := .StatusCreated
            Dates := { Created := some now, Updated := some now } }
        sessionsLoop m db now rest (sessions ++ [sess]) (fresh + 1)
          (calls ++ [.PluginsGetByNameVersion name version, .NewId])
    | _, _ => .abort .panicIndexOutOfRange fresh calls

/-- The handler `create` (lines 114-213).  `body` is the result of
`req.ReadEntity(raw)` (`none` when decoding fails), `u` the authenticated user,
`now` the value of `time.Now()` taken at line 173. -/
def create {σ : Type} (m : Manager σ) (body : Option Scan) (u : User) (now : Time)
    (db : σ) (fresh : Nat) : Run σ :=
  match body with
  | none =>
    ⟨.respond (.WriteServiceError StatusBadRequest .WrongEntityErr), db, fresh, []⟩
  | some raw =>
    match m.ProjectsGetById db raw.Project with
    | .error _ =>
      ⟨.respond (.WriteServiceError StatusBadRequest (.NewBadReq "project not found")),
        db, fresh, [.ProjectsGetById raw.Project]⟩
    | .ok project =>
      match m.TargetsGetById db raw.Target with
      | .error _ =>
        ⟨.respond (.WriteServiceError StatusBadRequest (.NewBadReq "target not found")),
          db, fresh, [.ProjectsGetById raw.Project, .TargetsGetById raw.Target]⟩
      | .ok target =>
        if target.Project ≠ project.Id then
          ⟨.respond (.WriteServiceError StatusBadRequest
            (.NewBadReq "this target is not from this project")),
            db, fresh, [.ProjectsGetById raw.Project, .TargetsGetById raw.Target]⟩
        else
          match m.PlansGetById db raw.Plan with
          | .error _ =>
            ⟨.respond (.WriteServiceError StatusBadRequest (.NewBadReq "plan not found")),
              db, fresh,
              [.ProjectsGetById raw.Project, .TargetsGetById raw.Target,
                .PlansGetById raw.Plan]⟩
          | .ok plan =>
            if plan.TargetType ≠ target.Typ then
              ⟨.respond (.WriteServiceError StatusBadRequest
                (.NewBadReq "target.type and plan.targetType is not compatible")),
                db, fresh,
                [.ProjectsGetById raw.Project, .TargetsGetById raw.Target,
                  .PlansGetById raw.Plan]⟩
            else
              let sc : Scan :=
                { Id := ""
                  Status := .StatusCreated
                  Owner := u.Id
                  Plan := raw.Plan
                  Project := project.Id
                  Target := target.Id
                  Conf := { Target := target.Addr }
                  Sessions := [] }
              match sessionsLoop m db now plan.Workflow sc.Sessions fresh
                  [.ProjectsGetById raw.Project, .TargetsGetById raw.Target,
                    .PlansGetById raw.Plan] with
              | .abort out fresh1 calls => ⟨out, db, fresh1, calls⟩
              | .done sessions fresh1 calls =>
                let sc1 : Scan := { sc with Sessions := sessions }
                match m.ScansCreate db sc1 with
                | (.error _, db1) =>
                  ⟨.respond (.WriteServiceError StatusInternalServerError .DbErr),
                    db1, fresh1, calls ++ [.ScansCreate sc1]⟩
                | (.ok obj, db1) =>
                  ⟨.respond (.WriteEntity StatusCreatedCode obj),
                    db1, fresh1, calls ++ [.ScansCreate sc1]⟩

/-! ## `get`, `delete` and `TakeScan` -/

/-- The handler `get` (lines 234-236): writes the scan it was given. -/
def get {σ : Type} (_m : Manager σ) (pl : Scan) (db : σ) (fresh : Nat)
    (calls : List Call) : Run σ :=
  ⟨.respond (.WriteEntity StatusOK pl), db, fresh, calls⟩

/-- The handler `delete` (lines 274-280): the error returned by
`mgr.Scans.Remove(obj)` is not inspected. -/
def delete {σ : Type} (m : Manager σ) (obj : Scan) (db : σ) (fresh : Nat)
    (calls : List Call) : Run σ :=
  ⟨.respond (.WriteHeader StatusNoContent), (m.ScansRemove db obj).2, fresh,
    calls ++ [.ScansRemove obj]⟩

/-- The wrapper `TakeScan` (lines 282-307); `fn` is the wrapped handler, which
receives the scan, the store state, the id counter and the log so far. -/
def TakeScan {σ : Type} (m : Manager σ) (fn : Scan → σ → Nat → List Call → Run σ)
    (id : String) (db : σ) (fresh : Nat) : Run σ :=
  if ¬ m.IsId id = true then
    ⟨.respond (.WriteServiceError StatusBadRequest .IdHexErr), db, fresh, []⟩
  else
    match m.ScansGetById db id with
    | .error err =>
      if IsNotFound err then
        ⟨.respond (.WriteErrorString StatusNotFound "Not found"), db, fresh,
          [.ScansGetById id]⟩
      else
        ⟨.respond (.WriteServiceError StatusInternalServerError .DbErr), db, fresh,
          [.ScansGetById id]⟩
    | .ok obj => fn obj db fresh [.ScansGetById id]


/-! ## An in-memory manager, for concrete runs -/

/-- Store state of the in-memory manager; `down` makes the scan collection
fail with an internal error. -/
structure MemDb where
  projects : List Project
  targets : List Target
  plans : List Plan
  plugins : List Plugin
  scans : List Scan
  down : Bool
  deriving DecidableEq, Repr

/-- The 24-digit hexadecimal rendering of `n`. -/
def hexId (n : Nat) : ObjectId :=
  String.mk ((List.range 24).reverse.map fun i => Nat.digitChar (n / 16 ^ i % 16))

/-- The predicate `bson.IsObjectIdHex`: 24 hexadecimal digits. -/
def IsObjectIdHex (s : String) : Bool :=
  s.data.length == 24 &&
    s.data.all fun c => c.isDigit || ('a' ≤ c && c ≤ 'f') || ('A' ≤ c && c ≤ 'F')

/-- Lookup by id in a collection; absent ids give the not-found error. -/
def findById {α : Type} (key : α → ObjectId) (xs : List α) (id : ObjectId) : Except Err α :=
  match xs.find? fun x => key x == id with
  | some x => .ok x
  | none => .error .notFound

/-- Modelled from the spec: the manager layer (package `pkg/manager` over the
document store) is not among the source files.  This instance keeps every
collection as a list: lookups find by id (plugins by exact name and version)
and report not-found otherwise, `Create` stores the scan under a new id and
returns it, `Remove` deletes by id, and the scan collection fails with an
internal error while `down` is set. -/
def memManager : Manager MemDb where
  ProjectsGetById db id := findById Project.Id db.projects id
  TargetsGetById db id := findById Target.Id db.targets id
  PlansGetById db id := findById Plan.Id db.plans id
  PluginsGetByNameVersion db name version :=
    match db.plugins.find? fun p => p.Name == name && p.Version == version with
    | some p => .ok p
    | none => .error .notFound
  NewId n := hexId n
  ScansCreate db sc :=
    if db.down then (.error (.other "storage unavailable"), db)
    else
      let obj : Scan := { sc with Id := hexId (4096 + db.scans.length) }
      (.ok obj, { db with scans := db.scans ++ [obj] })
  ScansGetById db id :=
    if db.down then .error (.other "storage unavailable") else findById Scan.Id db.scans id
  ScansRemove db obj :=
    if db.down then (some (.other "storage unavailable"), db)
    else (none, { db with scans := db.scans.filter fun s => s.Id != obj.Id })
  IsId := IsObjectIdHex

/-- Project P1 of the scenarios. -/
def P1 : Project := ⟨hexId 1⟩

/-- Target T1, of type "web", owned by P1. -/
def T1 : Target := ⟨hexId 2, hexId 1, "web", "example.org"⟩

/-- Plan L1 for "web" targets with the workflow of scenario A. -/
def L1 : Plan :=
  ⟨hexId 3, "web", [⟨"nmap:1.0", "ports", ""⟩, ⟨"zap:2.1", "spider", ""⟩]⟩

/-- The registry of the scenarios: nmap 1.0 and zap 2.1. -/
def registry : List Plugin := [⟨hexId 16, "nmap", "1.0"⟩, ⟨hexId 17, "zap", "2.1"⟩]

/-- Store of scenario A. -/
def dbA : MemDb := ⟨[P1], [T1], [L1], registry, [], false⟩

/-- The request body of scenario A: project P1, target T1, plan L1. -/
def reqA : Scan := ⟨"", .other "", "", hexId 3, hexId 1, hexId 2, ⟨""⟩, []⟩

/-- The caller of the scenarios. -/
def alice : User := ⟨hexId 9⟩

/-- A request naming a project and a target that do not exist. -/
def reqUnknown : Scan := ⟨"", .other "", "", hexId 3, hexId 100, hexId 101, ⟨""⟩, []⟩

/-- Project P2 of scenario C. -/
def P2 : Project := ⟨hexId 4⟩

/-- Store of scenario C: target T1 belongs to project P2. -/
def dbC : MemDb :=
  ⟨[P1, P2], [⟨hexId 2, hexId 4, "web", "example.org"⟩], [L1], registry, [], false⟩

/-- A target of type "host" owned by P1. -/
def THost : Target := ⟨hexId 2, hexId 1, "host", "10.0.0.7"⟩

/-- A plan for "web" targets whose only step has a reference without version. -/
def LBare : Plan := ⟨hexId 3, "web", [⟨"nmap", "ports", ""⟩]⟩

/-- Store with a "host" target and a "web" plan. -/
def dbHost : MemDb := ⟨[P1], [THost], [LBare], registry, [], false⟩

/-- Store of scenario A whose scan collection is unavailable. -/
def dbDown : MemDb := ⟨[P1], [T1], [L1], registry, [], true⟩

/-- Store of scenario B: as scenario A, the plan's only reference is "nmap". -/
def dbB : MemDb := ⟨[P1], [T1], [LBare], registry, [], false⟩

/-- A plan whose second step names a version that is not registered. -/
def LMissing : Plan :=
  ⟨hexId 3, "web",
    [⟨"nmap:1.0", "ports", ""⟩, ⟨"zap:9.9", "spider", ""⟩, ⟨"nmap:1.0", "again", ""⟩]⟩

/-- Store whose plan is `LMissing`. -/
def dbMissing : MemDb := ⟨[P1], [T1], [LMissing], registry, [], false⟩

/-- A plan whose only reference has three components. -/
def LExtra : Plan := ⟨hexId 3, "web", [⟨"nmap:1.0:beta", "ports", ""⟩]⟩

/-- Store whose plan is `LExtra`. -/
def dbExtra : MemDb := ⟨[P1], [T1], [LExtra], registry, [], false⟩

/-- The reference format of the data model: splitting on ':' gives exactly
two components, both non-empty. -/
def wellFormedRef (ref : String) : Bool :=
  match Split ref ':' with
  | [name, version] => name != "" && version != ""
  | _ => false

/-- A stored scan of scenario A, under the id the store gave it. -/
def scanA : Scan := ⟨hexId 4096, .StatusCreated, hexId 9, hexId 3, hexId 1, hexId 2,
  ⟨"example.org"⟩, []⟩

/-- Store of scenario A holding `scanA`. -/
def dbScan : MemDb := ⟨[P1], [T1], [L1], registry, [scanA], false⟩

/-- The outcomes of `n` successive DELETE requests for the same path id, each
starting from the store state the previous one left. -/
def deleteRepeatedly {σ : Type} (m : Manager σ) (id : String) : Nat → σ → Nat → List Outcome
  | 0, _, _ => []
  | n + 1, db, fresh =>
    (TakeScan m (delete m) id db fresh).out ::
      deleteRepeatedly m id n (TakeScan m (delete m) id db fresh).db
        (TakeScan m (delete m) id db fresh).fresh

/-- Modelled from the spec: the in-memory manager while the store rejects
removals (the manager layer, package `pkg/manager`, is not among the source
files).  `Remove` returns an internal error and leaves the collection as it
is; every other operation is that of `memManager`. -/
def removeFailing : Manager MemDb :=
  { memManager with
    ScansRemove := fun db _ => (some (.other "storage unavailable"), db) }

/-! ## Notions derived from the loop body, used to state the results -/

/-- The two strings `plNameVersion[0]`, `plNameVersion[1]` read at line 178;
`none` when index 1 is out of range. -/
def refParts (ref : String) : Option (String × String) :=
  match Split ref ':' with
  | name :: version :: _ => some (name, version)
  | _ => none

/-- The plugin the registry returns for a step, when the reference has two
components and the lookup succeeds. -/
def resolvedPlugin {σ : Type} (m : Manager σ) (db : σ) (step : WorkflowStep) : Option Plugin :=
  match refParts step.Plugin with
  | some (name, version) =>
    match m.PluginsGetByNameVersion db name version with
    | .ok pl => some pl
    | .error _ => none
  | none => none

/-- Calls made by one loop iteration that reaches line 200. -/
def stepCalls (step : WorkflowStep) : List Call :=
  match refParts step.Plugin with
  | some (name, version) => [.PluginsGetByNameVersion name version, .NewId]
  | none => []

/-- Calls made by loop iterations over `steps` that all reach line 200. -/
def loopCalls : List WorkflowStep → List Call
  | [] => []
  | step :: rest => stepCalls step ++ loopCalls rest

/-- The session appended at line 200 for a resolved step. -/
def stepSession {σ : Type} (m : Manager σ) (db : σ) (now : Time) (fresh : Nat)
    (step : WorkflowStep) : Session :=
  { Id := m.NewId fresh
    Step := step
    Plugin := ((resolvedPlugin m db step).map Plugin.Id).getD ""
    Status := .StatusCreated
    Dates := { Created := some now, Updated := some now } }

/-- Sessions appended by loop iterations over resolved `steps`. -/
def loopSessions {σ : Type} (m : Manager σ) (db : σ) (now : Time) :
    Nat → List WorkflowStep → List Session
  | _, [] => []
  | fresh, step :: rest => stepSession m db now fresh step :: loopSessions m db now (fresh + 1) rest

/-- The scans passed to `mgr.Scans.Create` in a call log. -/
def scansCreated : List Call → List Scan
  | [] => []
  | .ScansCreate sc :: rest => sc :: scansCreated rest
  | _ :: rest => scansCreated rest

/-- The calls that precede the loop when the whole validation chain passes. -/
def validationCalls (raw : Scan) : List Call :=
  [.ProjectsGetById raw.Project, .TargetsGetById raw.Target, .PlansGetById raw.Plan]

/-- The 201 response. -/
def created (obj : Scan) : Outcome := .respond (.WriteEntity StatusCreatedCode obj)

/-- The scan built at lines 162-172, with the sessions of the loop. -/
def newScan (u : User) (raw : Scan) (project : Project) (target : Target)
    (sessions : List Session) : Scan :=
  { Id := ""
    Status := .StatusCreated
    Owner := u.Id
    Plan := raw.Plan
    Project := project.Id
    Target := target.Id
    Conf := { Target := target.Addr }
    Sessions := sessions }

/-- The end of `create` (lines 203-212), after the loop ran to its end. -/
def persist {σ : Type} (m : Manager σ) (db : σ) (sc : Scan) (fresh : Nat)
    (calls : List Call) : Run σ :=
  match m.ScansCreate db sc with
  | (.error _, db1) =>
    ⟨.respond (.WriteServiceError StatusInternalServerError .DbErr), db1, fresh,
      calls ++ [.ScansCreate sc]⟩
  | (.ok obj, db1) =>
    ⟨.respond (.WriteEntity StatusCreatedCode obj), db1, fresh, calls ++ [.ScansCreate sc]⟩

/-! ## Lemmas on `Split` -/

theorem splitChars_ne_nil (sep : Char) (cs : List Char) : splitChars sep cs ≠ [] := by
  cases cs with
  | nil => simp [splitChars]
  | cons c cs =>
    unfold splitChars
    split
    · simp
    · split <;> simp

theorem splitChars_length (sep : Char) (cs : List Char) :
    (splitChars sep cs).length = cs.count sep + 1 := by
  induction cs with
  | nil => simp [splitChars]
  | cons c cs ih =>
    unfold splitChars
    by_cases h : c = sep
    · subst h
      simp [ih]
    · have hne := splitChars_ne_nil sep cs
      rw [if_neg h]
      cases hs : splitChars sep cs with
      | nil => exact absurd hs hne
      | cons p ps =>
        rw [hs] at ih
        simp only [List.length_cons] at ih ⊢
        rw [List.count_cons_of_ne (Ne.symm h)]
        omega

theorem Split_length (s : String) : (Split s ':').length = s.data.count ':' + 1 := by
  simp [Split, splitChars_length]

theorem refParts_eq_none_iff (ref : String) : refParts ref = none ↔ ':' ∉ ref.data := by
  have hlen := Split_length ref
  rw [← List.count_eq_zero]
  unfold refParts
  constructor
  · intro h
    rcases hs : Split ref ':' with _ | ⟨a, _ | ⟨b, t⟩⟩
    · rw [hs] at hlen; simp at hlen
    · rw [hs] at hlen; simp at hlen; omega
    · rw [hs] at h; simp at h
  · intro h
    rcases hs : Split ref ':' with _ | ⟨a, _ | ⟨b, t⟩⟩
    · rfl
    · rfl
    · rw [hs, h] at hlen; simp at hlen

/-! ## Lemmas on the loop -/

section LoopLemmas

variable {σ : Type} (m : Manager σ) (db : σ) (now : Time)

theorem sessionsLoop_cons_parts (step : WorkflowStep) (rest : List WorkflowStep)
    (sessions : List Session) (fresh : Nat) (calls : List Call) (name version : String)
    (h : refParts step.Plugin = some (name, version)) :
    sessionsLoop m db now (step :: rest) sessions fresh calls =
      match m.PluginsGetByNameVersion db name version with
      | .error err =>
        if IsNotFound err then
          .abort (.respond (.WriteServiceError StatusBadRequest
            (.NewBadReq (pluginNotFoundMsg step.Plugin)))) fresh
            (calls ++ [.PluginsGetByNameVersion name version])
        else
          .abort (.respond (.WriteServiceError StatusInternalServerError .DbErr)) fresh
            (calls ++ [.PluginsGetByNameVersion name version])
      | .ok plugin =>
        sessionsLoop m db now rest
          (sessions ++ [{ Id := m.NewId fresh, Step := step, Plugin := plugin.Id,
                          Status := .StatusCreated,
                          Dates := { Created := some now, Updated := some now } }])
          (fresh + 1) (calls ++ [.PluginsGetByNameVersion name version, .NewId]) := by
  unfold refParts at h
  rcases hs : Split step.Plugin ':' with _ | ⟨a, _ | ⟨b, t⟩⟩
  · rw [hs] at h; simp at h
  · rw [hs] at h; simp at h
  · rw [hs] at h
    simp only [Option.some.injEq, Prod.mk.injEq] at h
    obtain ⟨rfl, rfl⟩ := h
    simp [sessionsLoop, hs]

theorem sessionsLoop_cons_none (step : WorkflowStep) (rest : List WorkflowStep)
    (sessions : List Session) (fresh : Nat) (calls : List Call)
    (h : refParts step.Plugin = none) :
    sessionsLoop m db now (step :: rest) sessions fresh calls =
      .abort .panicIndexOutOfRange fresh calls := by
  unfold refParts at h
  rcases hs : Split step.Plugin ':' with _ | ⟨a, _ | ⟨b, t⟩⟩
  · simp [sessionsLoop, hs]
  · simp [sessionsLoop, hs]
  · rw [hs] at h; simp at h

theorem resolvedPlugin_eq_some {step : WorkflowStep} {pl : Plugin}
    (h : resolvedPlugin m db step = some pl) :
    ∃ name version, refParts step.Plugin = some (name, version) ∧
      m.PluginsGetByNameVersion db name version = .ok pl := by
  cases hp : refParts step.Plugin with
  | none => simp [resolvedPlugin, hp] at h
  | some p =>
    obtain ⟨name, version⟩ := p
    cases hl : m.PluginsGetByNameVersion db name version with
    | error e => simp [resolvedPlugin, hp, hl] at h
    | ok q =>
      simp [resolvedPlugin, hp, hl] at h
      exact ⟨name, version, rfl, by rw [hl, h]⟩

theorem resolvedPlugin_of_lookup {step : WorkflowStep} {pl : Plugin} {name version : String}
    (hp : refParts step.Plugin = some (name, version))
    (hl : m.PluginsGetByNameVersion db name version = .ok pl) :
    resolvedPlugin m db step = some pl := by
  simp [resolvedPlugin, hp, hl]

theorem resolvedPlugin_of_error {step : WorkflowStep} {e : Err} {name version : String}
    (hp : refParts step.Plugin = some (name, version))
    (hl : m.PluginsGetByNameVersion db name version = .error e) :
    resolvedPlugin m db step = none := by
  simp [resolvedPlugin, hp, hl]

theorem sessionsLoop_cons_resolved (step : WorkflowStep) (rest : List WorkflowStep)
    (sessions : List Session) (fresh : Nat) (calls : List Call)
    (h : (resolvedPlugin m db step).isSome = true) :
    sessionsLoop m db now (step :: rest) sessions fresh calls =
      sessionsLoop m db now rest (sessions ++ [stepSession m db now fresh step]) (fresh + 1)
        (calls ++ stepCalls step) := by
  obtain ⟨pl, hpl⟩ := Option.isSome_iff_exists.mp h
  obtain ⟨name, version, hp, hl⟩ := resolvedPlugin_eq_some m db hpl
  rw [sessionsLoop_cons_parts m db now step rest sessions fresh calls name version hp, hl]
  simp [stepSession, stepCalls, hp, hpl]

theorem sessionsLoop_append_resolved (pre rest : List WorkflowStep) :
    ∀ (sessions : List Session) (fresh : Nat) (calls : List Call),
      (∀ st ∈ pre, (resolvedPlugin m db st).isSome = true) →
      sessionsLoop m db now (pre ++ rest) sessions fresh calls =
        sessionsLoop m db now rest (sessions ++ loopSessions m db now fresh pre)
          (fresh + pre.length) (calls ++ loopCalls pre) := by
  induction pre with
  | nil => intro sessions fresh calls _; simp [loopSessions, loopCalls]
  | cons st pre ih =>
    intro sessions fresh calls h
    have hst : (resolvedPlugin m db st).isSome = true := h st (List.mem_cons_self _ _)
    have hpre : ∀ x ∈ pre, (resolvedPlugin m db x).isSome = true :=
      fun x hx => h x (List.mem_cons_of_mem _ hx)
    rw [List.cons_append, sessionsLoop_cons_resolved m db now st (pre ++ rest) sessions fresh
      calls hst, ih _ _ _ hpre]
    simp [loopSessions, loopCalls, List.append_assoc, Nat.add_comm, Nat.add_left_comm]

theorem sessionsLoop_all_resolved (steps : List WorkflowStep) (sessions : List Session)
    (fresh : Nat) (calls : List Call)
    (h : ∀ st ∈ steps, (resolvedPlugin m db st).isSome = true) :
    sessionsLoop m db now steps sessions fresh calls =
      .done (sessions ++ loopSessions m db now fresh steps) (fresh + steps.length)
        (calls ++ loopCalls steps) := by
  have := sessionsLoop_append_resolved m db now steps [] sessions fresh calls h
  simpa [sessionsLoop] using this

theorem loopSessions_length (steps : List WorkflowStep) :
    ∀ fresh, (loopSessions m db now fresh steps).length = steps.length := by
  induction steps with
  | nil => intro; rfl
  | cons st steps ih => intro fresh; simp [loopSessions, ih]

theorem loopSessions_getElem_opt (steps : List WorkflowStep) :
    ∀ (fresh i : Nat), (loopSessions m db now fresh steps)[i]? =
      (steps[i]?).map (stepSession m db now (fresh + i)) := by
  induction steps with
  | nil => intro fresh i; simp [loopSessions]
  | cons st steps ih =>
    intro fresh i
    cases i with
    | zero => simp [loopSessions]
    | succ i =>
      have hi : fresh + 1 + i = fresh + (i + 1) := by omega
      simp only [loopSessions, List.getElem?_cons_succ, ih, hi]

theorem scansCreated_append (a b : List Call) :
    scansCreated (a ++ b) = scansCreated a ++ scansCreated b := by
  induction a with
  | nil => rfl
  | cons c a ih => cases c <;> simp [scansCreated, ih]

theorem scansCreated_stepCalls (step : WorkflowStep) : scansCreated (stepCalls step) = [] := by
  unfold stepCalls
  split <;> rfl

theorem scansCreated_loopCalls (steps : List WorkflowStep) :
    scansCreated (loopCalls steps) = [] := by
  induction steps with
  | nil => rfl
  | cons st steps ih => simp [loopCalls, scansCreated_append, scansCreated_stepCalls, ih]

theorem scansCreated_validationCalls (raw : Scan) : scansCreated (validationCalls raw) = [] := rfl

/-- Every run of the loop either returns early, with a response that is not
201 and without a call to `Scans.Create`, at a step that does not resolve, or
runs to its end over steps that all resolve. -/
theorem sessionsLoop_cases (steps : List WorkflowStep) :
    ∀ (sessions : List Session) (fresh : Nat) (calls : List Call),
      (∃ out fresh1 calls1, sessionsLoop m db now steps sessions fresh calls =
          .abort out fresh1 calls1 ∧ (∀ obj, out ≠ created obj) ∧
          scansCreated calls1 = scansCreated calls ∧ calls <+: calls1 ∧
          ¬ (∀ st ∈ steps, (resolvedPlugin m db st).isSome = true)) ∨
      (sessionsLoop m db now steps sessions fresh calls =
          .done (sessions ++ loopSessions m db now fresh steps) (fresh + steps.length)
            (calls ++ loopCalls steps) ∧
        ∀ st ∈ steps, (resolvedPlugin m db st).isSome = true) := by
  induction steps with
  | nil =>
    intro sessions fresh calls
    right
    simp [sessionsLoop, loopSessions, loopCalls]
  | cons st steps ih =>
    intro sessions fresh calls
    cases hp : refParts st.Plugin with
    | none =>
      left
      refine ⟨_, _, _, sessionsLoop_cons_none m db now st steps sessions fresh calls hp,
        ?_, rfl, List.prefix_refl _, ?_⟩
      · intro obj h; simp [created] at h
      · intro h
        have := h st (List.mem_cons_self _ _)
        simp [resolvedPlugin, hp] at this
    | some p =>
      obtain ⟨name, version⟩ := p
      cases hl : m.PluginsGetByNameVersion db name version with
      | error e =>
        left
        have hnone := resolvedPlugin_of_error m db hp hl
        have hnot : ¬ (∀ x ∈ st :: steps, (resolvedPlugin m db x).isSome = true) := by
          intro h
          have := h st (List.mem_cons_self _ _)
          simp [hnone] at this
        rw [sessionsLoop_cons_parts m db now st steps sessions fresh calls name version hp, hl]
        by_cases hnf : IsNotFound e = true
        · refine ⟨_, _, _, by dsimp only; rw [if_pos hnf], ?_, ?_, List.prefix_append _ _, hnot⟩
          · intro obj h; simp [created, StatusBadRequest, StatusCreatedCode] at h
          · simp [scansCreated_append, scansCreated]
        · refine ⟨_, _, _, by dsimp only; rw [if_neg hnf], ?_, ?_, List.prefix_append _ _, hnot⟩
          · intro obj h; simp [created] at h
          · simp [scansCreated_append, scansCreated]
      | ok pl =>
        have hsome : (resolvedPlugin m db st).isSome = true := by
          simp [resolvedPlugin_of_lookup m db hp hl]
        rw [sessionsLoop_cons_resolved m db now st steps sessions fresh calls hsome]
        rcases ih (sessions ++ [stepSession m db now fresh st]) (fresh + 1)
          (calls ++ stepCalls st) with ⟨out, f1, c1, heq, hout, hsc, hpfx, hnot⟩ | ⟨heq, hall⟩
        · left
          refine ⟨out, f1, c1, heq, hout, ?_, (List.prefix_append _ _).trans hpfx, ?_⟩
          · rw [hsc, scansCreated_append, scansCreated_stepCalls, List.append_nil]
          · intro h
            exact hnot fun x hx => h x (List.mem_cons_of_mem _ hx)
        · right
          refine ⟨?_, ?_⟩
          · rw [heq]
            simp [loopSessions, loopCalls, List.append_assoc, Nat.add_comm, Nat.add_left_comm]
          · intro x hx
            rcases List.mem_cons.mp hx with rfl | hx
            · exact hsome
            · exact hall x hx

end LoopLemmas


/-! ## Lemmas on `create` -/

section CreateLemmas

variable {σ : Type} (m : Manager σ) (raw : Scan) (u : User) (now : Time) (db : σ) (fresh : Nat)

theorem create_of_valid {project : Project} {target : Target} {plan : Plan}
    (hproj : m.ProjectsGetById db raw.Project = .ok project)
    (htar : m.TargetsGetById db raw.Target = .ok target)
    (hown : target.Project = project.Id)
    (hplan : m.PlansGetById db raw.Plan = .ok plan)
    (htype : plan.TargetType = target.Typ) :
    create m (some raw) u now db fresh =
      match sessionsLoop m db now plan.Workflow [] fresh (validationCalls raw) with
      | .abort out fresh1 calls => ⟨out, db, fresh1, calls⟩
      | .done sessions fresh1 calls =>
        persist m db (newScan u raw project target sessions) fresh1 calls := by
  simp only [create, hproj, htar, hown, hplan, htype, ne_eq, not_true_eq_false, if_false]
  rfl

theorem create_of_resolved {project : Project} {target : Target} {plan : Plan}
    (hproj : m.ProjectsGetById db raw.Project = .ok project)
    (htar : m.TargetsGetById db raw.Target = .ok target)
    (hown : target.Project = project.Id)
    (hplan : m.PlansGetById db raw.Plan = .ok plan)
    (htype : plan.TargetType = target.Typ)
    (hres : ∀ st ∈ plan.Workflow, (resolvedPlugin m db st).isSome = true) :
    create m (some raw) u now db fresh =
      persist m db (newScan u raw project target (loopSessions m db now fresh plan.Workflow))
        (fresh + plan.Workflow.length) (validationCalls raw ++ loopCalls plan.Workflow) := by
  rw [create_of_valid m raw u now db fresh hproj htar hown hplan htype,
    sessionsLoop_all_resolved m db now plan.Workflow [] fresh (validationCalls raw) hres]
  simp

theorem persist_calls (sc : Scan) (calls : List Call) :
    (persist m db sc fresh calls).calls = calls ++ [.ScansCreate sc] := by
  unfold persist
  split <;> rfl

theorem persist_db (sc : Scan) (calls : List Call) :
    (persist m db sc fresh calls).db = (m.ScansCreate db sc).2 := by
  unfold persist
  split <;> simp_all

theorem persist_out (sc : Scan) (calls : List Call) :
    (persist m db sc fresh calls).out =
      match (m.ScansCreate db sc).1 with
      | .ok obj => created obj
      | .error _ => .respond (.WriteServiceError StatusInternalServerError .DbErr) := by
  unfold persist
  split <;> simp_all [created]

theorem create_at_step {project : Project} {target : Target} {plan : Plan}
    {pre post : List WorkflowStep} {step : WorkflowStep}
    (hproj : m.ProjectsGetById db raw.Project = .ok project)
    (htar : m.TargetsGetById db raw.Target = .ok target)
    (hown : target.Project = project.Id)
    (hplan : m.PlansGetById db raw.Plan = .ok plan)
    (htype : plan.TargetType = target.Typ)
    (hwf : plan.Workflow = pre ++ step :: post)
    (hpre : ∀ st ∈ pre, (resolvedPlugin m db st).isSome = true) :
    create m (some raw) u now db fresh =
      match sessionsLoop m db now (step :: post) (loopSessions m db now fresh pre)
          (fresh + pre.length) (validationCalls raw ++ loopCalls pre) with
      | .abort out fresh1 calls => ⟨out, db, fresh1, calls⟩
      | .done sessions fresh1 calls =>
        persist m db (newScan u raw project target sessions) fresh1 calls := by
  rw [create_of_valid m raw u now db fresh hproj htar hown hplan htype, hwf,
    sessionsLoop_append_resolved m db now pre (step :: post) [] fresh (validationCalls raw) hpre]
  simp

theorem refParts_eq_some_iff (ref name version : String) :
    refParts ref = some (name, version) ↔ ∃ rest, Split ref ':' = name :: version :: rest := by
  unfold refParts
  rcases hs : Split ref ':' with _ | ⟨a, _ | ⟨b, t⟩⟩
  · simp
  · simp
  · simp only [Option.some.injEq, Prod.mk.injEq, List.cons.injEq]
    constructor
    · rintro ⟨rfl, rfl⟩; exact ⟨t, rfl, rfl, rfl⟩
    · rintro ⟨rest, h1, h2, _⟩; exact ⟨h1, h2⟩

end CreateLemmas


/-! ## Results on `create` -/

/-- C1: when the validation chain passes and every workflow step resolves,
the scan handed to `Scans.Create` has one session per workflow step, in plan
order: session i snapshots step i, carries the id of the plugin the registry
returned for the step's (name, version), has status Created, and its Created
and Updated dates are both the one `now` taken before the loop. -/
theorem create_sessions_follow_workflow {σ : Type} (m : Manager σ) (raw : Scan) (u : User)
    (now : Time) (db : σ) (fresh : Nat) (project : Project) (target : Target) (plan : Plan)
    (hproj : m.ProjectsGetById db raw.Project = .ok project)
    (htar : m.TargetsGetById db raw.Target = .ok target)
    (hown : target.Project = project.Id)
    (hplan : m.PlansGetById db raw.Plan = .ok plan)
    (htype : plan.TargetType = target.Typ)
    (hres : ∀ st ∈ plan.Workflow, (resolvedPlugin m db st).isSome = true) :
    ∃ sc, scansCreated (create m (some raw) u now db fresh).calls = [sc] ∧
      sc.Sessions.length = plan.Workflow.length ∧
      ∀ (i : Nat) (hi : i < plan.Workflow.length), ∃ sess name version pl,
        sc.Sessions[i]? = some sess ∧
        sess.Step = plan.Workflow[i] ∧
        refParts plan.Workflow[i].Plugin = some (name, version) ∧
        m.PluginsGetByNameVersion db name version = .ok pl ∧
        sess.Plugin = pl.Id ∧
        sess.Status = .StatusCreated ∧
        sess.Dates.Created = some now ∧ sess.Dates.Updated = some now := by
  refine ⟨newScan u raw project target (loopSessions m db now fresh plan.Workflow), ?_, ?_, ?_⟩
  · rw [create_of_resolved m raw u now db fresh hproj htar hown hplan htype hres, persist_calls]
    simp [scansCreated_append, scansCreated_loopCalls, scansCreated_validationCalls,
      scansCreated]
  · simp [newScan, loopSessions_length]
  · intro i hi
    have hmem : plan.Workflow[i] ∈ plan.Workflow := List.getElem_mem hi
    obtain ⟨pl, hpl⟩ := Option.isSome_iff_exists.mp (hres _ hmem)
    obtain ⟨name, version, hp, hl⟩ := resolvedPlugin_eq_some m db hpl
    refine ⟨stepSession m db now (fresh + i) plan.Workflow[i], name, version, pl, ?_, rfl, hp,
      hl, ?_, rfl, rfl, rfl⟩
    · simp [newScan, loopSessions_getElem_opt, List.getElem?_eq_getElem hi]
    · simp [stepSession, hpl]

/-- Scenario A: two steps, both registered; the scan handed to the repository
has the two sessions in plan order. -/
theorem create_sessions_follow_workflow_witness :
    ∃ sc, scansCreated (create memManager (some reqA) alice 77 dbA 0).calls = [sc] ∧
      sc.Sessions.length = L1.Workflow.length ∧
      ∀ (i : Nat) (hi : i < L1.Workflow.length), ∃ sess name version pl,
        sc.Sessions[i]? = some sess ∧
        sess.Step = L1.Workflow[i] ∧
        refParts L1.Workflow[i].Plugin = some (name, version) ∧
        memManager.PluginsGetByNameVersion dbA name version = .ok pl ∧
        sess.Plugin = pl.Id ∧
        sess.Status = .StatusCreated ∧
        sess.Dates.Created = some 77 ∧ sess.Dates.Updated = some 77 :=
  create_sessions_follow_workflow memManager reqA alice 77 dbA 0 P1 T1 L1 rfl rfl rfl rfl rfl
    (by decide)

/-- C2: the checks run in the order project, target, ownership, plan, type, and
the response is the BadRequest of the first check that fails; the call log
shows that no lookup is made after the failing check, and the store state is
the one before the call. -/
theorem create_validation_order {σ : Type} (m : Manager σ) (raw : Scan) (u : User)
    (now : Time) (db : σ) (fresh : Nat) :
    (∀ e, m.ProjectsGetById db raw.Project = .error e →
      create m (some raw) u now db fresh =
        ⟨.respond (.WriteServiceError StatusBadRequest (.NewBadReq "project not found")),
          db, fresh, [.ProjectsGetById raw.Project]⟩) ∧
    (∀ project e, m.ProjectsGetById db raw.Project = .ok project →
      m.TargetsGetById db raw.Target = .error e →
      create m (some raw) u now db fresh =
        ⟨.respond (.WriteServiceError StatusBadRequest (.NewBadReq "target not found")),
          db, fresh, [.ProjectsGetById raw.Project, .TargetsGetById raw.Target]⟩) ∧
    (∀ project target, m.ProjectsGetById db raw.Project = .ok project →
      m.TargetsGetById db raw.Target = .ok target →
      target.Project ≠ project.Id →
      create m (some raw) u now db fresh =
        ⟨.respond (.WriteServiceError StatusBadRequest
            (.NewBadReq "this target is not from this project")),
          db, fresh, [.ProjectsGetById raw.Project, .TargetsGetById raw.Target]⟩) ∧
    (∀ project target e, m.ProjectsGetById db raw.Project = .ok project →
      m.TargetsGetById db raw.Target = .ok target →
      target.Project = project.Id →
      m.PlansGetById db raw.Plan = .error e →
      create m (some raw) u now db fresh =
        ⟨.respond (.WriteServiceError StatusBadRequest (.NewBadReq "plan not found")),
          db, fresh,
          [.ProjectsGetById raw.Project, .TargetsGetById raw.Target,
            .PlansGetById raw.Plan]⟩) ∧
    (∀ project target plan, m.ProjectsGetById db raw.Project = .ok project →
      m.TargetsGetById db raw.Target = .ok target →
      target.Project = project.Id →
      m.PlansGetById db raw.Plan = .ok plan →
      plan.TargetType ≠ target.Typ →
      create m (some raw) u now db fresh =
        ⟨.respond (.WriteServiceError StatusBadRequest
            (.NewBadReq "target.type and plan.targetType is not compatible")),
          db, fresh,
          [.ProjectsGetById raw.Project, .TargetsGetById raw.Target,
            .PlansGetById raw.Plan]⟩) := by
  refine ⟨?_, ?_, ?_, ?_, ?_⟩
  · intro e h
    simp only [create, h]
  · intro project e h1 h2
    simp only [create, h1, h2]
  · intro project target h1 h2 h3
    simp only [create, h1, h2, ne_eq, h3, not_false_eq_true, if_true]
  · intro project target e h1 h2 h3 h4
    simp only [create, h1, h2, h3, h4, ne_eq, not_true_eq_false, if_false]
  · intro project target plan h1 h2 h3 h4 h5
    simp only [create, h1, h2, h3, h4, ne_eq, h5, not_true_eq_false, not_false_eq_true,
      if_false, if_true]

/-- Property P3 and scenario C: with unknown project and target ids the answer
is "project not found" after the single project lookup; with a target of
another project it is "this target is not from this project". -/
theorem create_validation_order_witness :
    create memManager (some reqUnknown) alice 77 dbA 0 =
        ⟨.respond (.WriteServiceError StatusBadRequest (.NewBadReq "project not found")),
          dbA, 0, [.ProjectsGetById (hexId 100)]⟩ ∧
      create memManager (some reqA) alice 77 dbC 0 =
        ⟨.respond (.WriteServiceError StatusBadRequest
            (.NewBadReq "this target is not from this project")),
          dbC, 0, [.ProjectsGetById (hexId 1), .TargetsGetById (hexId 2)]⟩ :=
  ⟨(create_validation_order memManager reqUnknown alice 77 dbA 0).1 .notFound rfl,
    (create_validation_order memManager reqA alice 77 dbC 0).2.2.1 P1
      ⟨hexId 2, hexId 4, "web", "example.org"⟩ rfl rfl (by decide)⟩

/-- C6: when project, target and plan exist, the target belongs to the project
and the plan's target type differs from the target's type, the response is the
compatibility BadRequest whatever the workflow holds, and the call log has no
plugin lookup. -/
theorem create_rejects_incompatible_types {σ : Type} (m : Manager σ) (raw : Scan) (u : User)
    (now : Time) (db : σ) (fresh : Nat) (project : Project) (target : Target) (plan : Plan)
    (hproj : m.ProjectsGetById db raw.Project = .ok project)
    (htar : m.TargetsGetById db raw.Target = .ok target)
    (hown : target.Project = project.Id)
    (hplan : m.PlansGetById db raw.Plan = .ok plan)
    (htype : plan.TargetType ≠ target.Typ) :
    (create m (some raw) u now db fresh).out =
        .respond (.WriteServiceError StatusBadRequest
          (.NewBadReq "target.type and plan.targetType is not compatible")) ∧
      (create m (some raw) u now db fresh).db = db ∧
      ∀ name version,
        Call.PluginsGetByNameVersion name version ∉ (create m (some raw) u now db fresh).calls := by
  have h : create m (some raw) u now db fresh =
      ⟨.respond (.WriteServiceError StatusBadRequest
          (.NewBadReq "target.type and plan.targetType is not compatible")),
        db, fresh, validationCalls raw⟩ := by
    simp only [create, hproj, htar, hown, hplan, ne_eq, htype, not_true_eq_false,
      not_false_eq_true, if_false, if_true, validationCalls]
  rw [h]
  refine ⟨rfl, rfl, ?_⟩
  intro name version hmem
  simp [validationCalls] at hmem

/-- Property P4: a "web" plan against a "host" target is rejected with the
compatibility error although its only plugin reference is malformed. -/
theorem create_rejects_incompatible_types_witness :
    (create memManager (some reqA) alice 77 dbHost 0).out =
        .respond (.WriteServiceError StatusBadRequest
          (.NewBadReq "target.type and plan.targetType is not compatible")) ∧
      (create memManager (some reqA) alice 77 dbHost 0).db = dbHost ∧
      ∀ name version,
        Call.PluginsGetByNameVersion name version ∉
          (create memManager (some reqA) alice 77 dbHost 0).calls :=
  create_rejects_incompatible_types memManager reqA alice 77 dbHost 0 P1 THost LBare
    rfl rfl rfl rfl (by decide)


/-- C8: when validation and expansion pass, the scan handed to `Scans.Create`,
as the last call of the run, has status Created, the caller as owner, the ids
of the looked-up project and target, the plan id of the request and the
target's address in its configuration; if `Create` succeeds the response is 201
with the object it returned, and if it fails the response is 500 with the
database error. -/
theorem create_scan_fields_and_response {σ : Type} (m : Manager σ) (raw : Scan) (u : User)
    (now : Time) (db : σ) (fresh : Nat) (project : Project) (target : Target) (plan : Plan)
    (hproj : m.ProjectsGetById db raw.Project = .ok project)
    (htar : m.TargetsGetById db raw.Target = .ok target)
    (hown : target.Project = project.Id)
    (hplan : m.PlansGetById db raw.Plan = .ok plan)
    (htype : plan.TargetType = target.Typ)
    (hres : ∀ st ∈ plan.Workflow, (resolvedPlugin m db st).isSome = true) :
    ∃ sc, (create m (some raw) u now db fresh).calls =
        validationCalls raw ++ loopCalls plan.Workflow ++ [.ScansCreate sc] ∧
      sc.Status = .StatusCreated ∧ sc.Owner = u.Id ∧ sc.Project = project.Id ∧
      sc.Target = target.Id ∧ sc.Plan = raw.Plan ∧ sc.Conf.Target = target.Addr ∧
      (∀ obj db1, m.ScansCreate db sc = (.ok obj, db1) →
        (create m (some raw) u now db fresh).out =
            .respond (.WriteEntity StatusCreatedCode obj) ∧
          (create m (some raw) u now db fresh).db = db1) ∧
      (∀ e db1, m.ScansCreate db sc = (.error e, db1) →
        (create m (some raw) u now db fresh).out =
            .respond (.WriteServiceError StatusInternalServerError .DbErr) ∧
          (create m (some raw) u now db fresh).db = db1) := by
  refine ⟨newScan u raw project target (loopSessions m db now fresh plan.Workflow), ?_,
    rfl, rfl, rfl, rfl, rfl, rfl, ?_, ?_⟩
  · rw [create_of_resolved m raw u now db fresh hproj htar hown hplan htype hres, persist_calls]
  · intro obj db1 h
    rw [create_of_resolved m raw u now db fresh hproj htar hown hplan htype hres,
      persist_out, persist_db, h]
    exact ⟨rfl, rfl⟩
  · intro e db1 h
    rw [create_of_resolved m raw u now db fresh hproj htar hown hplan htype hres,
      persist_out, persist_db, h]
    exact ⟨rfl, rfl⟩

/-- Scenario A: the scan of the request reaches the repository with the
stated fields. -/
theorem create_scan_fields_and_response_witness :
    ∃ sc, (create memManager (some reqA) alice 77 dbA 0).calls =
        validationCalls reqA ++ loopCalls L1.Workflow ++ [.ScansCreate sc] ∧
      sc.Status = .StatusCreated ∧ sc.Owner = alice.Id ∧ sc.Project = P1.Id ∧
      sc.Target = T1.Id ∧ sc.Plan = reqA.Plan ∧ sc.Conf.Target = T1.Addr ∧
      (∀ obj db1, memManager.ScansCreate dbA sc = (.ok obj, db1) →
        (create memManager (some reqA) alice 77 dbA 0).out =
            .respond (.WriteEntity StatusCreatedCode obj) ∧
          (create memManager (some reqA) alice 77 dbA 0).db = db1) ∧
      (∀ e db1, memManager.ScansCreate dbA sc = (.error e, db1) →
        (create memManager (some reqA) alice 77 dbA 0).out =
            .respond (.WriteServiceError StatusInternalServerError .DbErr) ∧
          (create memManager (some reqA) alice 77 dbA 0).db = db1) :=
  create_scan_fields_and_response memManager reqA alice 77 dbA 0 P1 T1 L1 rfl rfl rfl rfl rfl
    (by decide)

/-- C5: when the validation chain passes, the steps before `step` resolve and
the registry answers the lookup of `step` with an error, that step decides the
response: 400 "plugin <reference> is not found", with the unsplit reference,
if the error is not-found, and 500 with the database error otherwise.  The
call log ends with that lookup: the step is not skipped, no later step is
looked up and nothing is persisted. -/
theorem create_first_lookup_error {σ : Type} (m : Manager σ) (raw : Scan) (u : User)
    (now : Time) (db : σ) (fresh : Nat) (project : Project) (target : Target) (plan : Plan)
    (pre post : List WorkflowStep) (step : WorkflowStep) (name version : String) (e : Err)
    (hproj : m.ProjectsGetById db raw.Project = .ok project)
    (htar : m.TargetsGetById db raw.Target = .ok target)
    (hown : target.Project = project.Id)
    (hplan : m.PlansGetById db raw.Plan = .ok plan)
    (htype : plan.TargetType = target.Typ)
    (hwf : plan.Workflow = pre ++ step :: post)
    (hpre : ∀ st ∈ pre, (resolvedPlugin m db st).isSome = true)
    (hparts : refParts step.Plugin = some (name, version))
    (herr : m.PluginsGetByNameVersion db name version = .error e) :
    (create m (some raw) u now db fresh).out =
        (if IsNotFound e = true then
          .respond (.WriteServiceError StatusBadRequest
            (.NewBadReq ("plugin " ++ step.Plugin ++ " is not found")))
        else .respond (.WriteServiceError StatusInternalServerError .DbErr)) ∧
      (create m (some raw) u now db fresh).calls =
        validationCalls raw ++ loopCalls pre ++ [.PluginsGetByNameVersion name version] ∧
      (create m (some raw) u now db fresh).db = db := by
  rw [create_at_step m raw u now db fresh hproj htar hown hplan htype hwf hpre,
    sessionsLoop_cons_parts m db now step post _ _ _ name version hparts, herr]
  by_cases hnf : IsNotFound e = true
  · simp [hnf, pluginNotFoundMsg]
  · simp [hnf]

/-- A plan whose second of three steps names an unregistered version: the
answer names "zap:9.9" and the third step is never looked up. -/
theorem create_first_lookup_error_witness :
    (create memManager (some reqA) alice 77 dbMissing 0).out =
        (if IsNotFound .notFound = true then
          .respond (.WriteServiceError StatusBadRequest
            (.NewBadReq ("plugin " ++ "zap:9.9" ++ " is not found")))
        else .respond (.WriteServiceError StatusInternalServerError .DbErr)) ∧
      (create memManager (some reqA) alice 77 dbMissing 0).calls =
        validationCalls reqA ++ loopCalls [⟨"nmap:1.0", "ports", ""⟩] ++
          [.PluginsGetByNameVersion "zap" "9.9"] ∧
      (create memManager (some reqA) alice 77 dbMissing 0).db = dbMissing :=
  create_first_lookup_error memManager reqA alice 77 dbMissing 0 P1 T1 LMissing
    [⟨"nmap:1.0", "ports", ""⟩] [⟨"nmap:1.0", "again", ""⟩] ⟨"zap:9.9", "spider", ""⟩
    "zap" "9.9" .notFound rfl rfl rfl rfl rfl rfl (by decide) (by decide) rfl

/-- C4 (what the code does instead): when the validation chain passes, the
steps before `step` resolve and the reference of `step` has no ':' separator,
`create` does not answer 400: it leaves by the index-out-of-range panic of
`plNameVersion[1]`, before any registry lookup for that step; nothing is
persisted. -/
theorem create_panics_on_bare_reference {σ : Type} (m : Manager σ) (raw : Scan) (u : User)
    (now : Time) (db : σ) (fresh : Nat) (project : Project) (target : Target) (plan : Plan)
    (pre post : List WorkflowStep) (step : WorkflowStep)
    (hproj : m.ProjectsGetById db raw.Project = .ok project)
    (htar : m.TargetsGetById db raw.Target = .ok target)
    (hown : target.Project = project.Id)
    (hplan : m.PlansGetById db raw.Plan = .ok plan)
    (htype : plan.TargetType = target.Typ)
    (hwf : plan.Workflow = pre ++ step :: post)
    (hpre : ∀ st ∈ pre, (resolvedPlugin m db st).isSome = true)
    (hbare : ':' ∉ step.Plugin.data) :
    (Split step.Plugin ':').length = 1 ∧
      (create m (some raw) u now db fresh).out = .panicIndexOutOfRange ∧
      (create m (some raw) u now db fresh).calls = validationCalls raw ++ loopCalls pre ∧
      (create m (some raw) u now db fresh).db = db := by
  have hnone : refParts step.Plugin = none := (refParts_eq_none_iff _).mpr hbare
  refine ⟨?_, ?_⟩
  · rw [Split_length, List.count_eq_zero.mpr hbare]
  · rw [create_at_step m raw u now db fresh hproj htar hown hplan htype hwf hpre,
      sessionsLoop_cons_none m db now step post _ _ _ hnone]
    exact ⟨rfl, rfl, rfl⟩

/-- Scenario B: the only reference is "nmap"; the run ends in the panic after
the three validation lookups. -/
theorem create_panics_on_bare_reference_witness :
    (Split "nmap" ':').length = 1 ∧
      (create memManager (some reqA) alice 77 dbB 0).out = .panicIndexOutOfRange ∧
      (create memManager (some reqA) alice 77 dbB 0).calls =
        validationCalls reqA ++ loopCalls [] ∧
      (create memManager (some reqA) alice 77 dbB 0).db = dbB :=
  create_panics_on_bare_reference memManager reqA alice 77 dbB 0 P1 T1 LBare
    [] [] ⟨"nmap", "ports", ""⟩ rfl rfl rfl rfl rfl rfl (by decide) (by decide)


/-- C7 (as stated, refuted): the reference "nmap:1.0:beta" is not of the form
name:version, yet `create` looks ("nmap", "1.0") up in the registry, answers
201 and the scan is stored. -/
theorem create_accepts_three_part_reference :
    wellFormedRef "nmap:1.0:beta" = false ∧
      (∃ obj, (create memManager (some reqA) alice 77 dbExtra 0).out =
        .respond (.WriteEntity StatusCreatedCode obj)) ∧
      Call.PluginsGetByNameVersion "nmap" "1.0" ∈
        (create memManager (some reqA) alice 77 dbExtra 0).calls ∧
      (create memManager (some reqA) alice 77 dbExtra 0).db.scans.length = 1 :=
  ⟨by decide, ⟨_, rfl⟩, by decide, by decide⟩

/-- C7 (amended): for a step whose reference contains ':', whatever the number
of components and even with an empty name or version, `create` takes the
first two components of the split as (name, version) and looks them up in
the registry.  If the registry reports not-found the request is rejected with
400 "plugin <reference> is not found", the expansion stops and nothing is
persisted; if the registry returns a plugin the step is accepted, and when the
remaining steps resolve too the scan handed to the repository has a session
for the step bound to that plugin. -/
theorem create_looks_up_first_two_components {σ : Type} (m : Manager σ) (raw : Scan)
    (u : User) (now : Time) (db : σ) (fresh : Nat) (project : Project) (target : Target)
    (plan : Plan) (pre post : List WorkflowStep) (step : WorkflowStep)
    (hproj : m.ProjectsGetById db raw.Project = .ok project)
    (htar : m.TargetsGetById db raw.Target = .ok target)
    (hown : target.Project = project.Id)
    (hplan : m.PlansGetById db raw.Plan = .ok plan)
    (htype : plan.TargetType = target.Typ)
    (hwf : plan.Workflow = pre ++ step :: post)
    (hpre : ∀ st ∈ pre, (resolvedPlugin m db st).isSome = true)
    (hsep : ':' ∈ step.Plugin.data) :
    ∃ name version rest, Split step.Plugin ':' = name :: version :: rest ∧
      Call.PluginsGetByNameVersion name version ∈ (create m (some raw) u now db fresh).calls ∧
      (∀ e, m.PluginsGetByNameVersion db name version = .error e → IsNotFound e = true →
        (create m (some raw) u now db fresh).out =
            .respond (.WriteServiceError StatusBadRequest
              (.NewBadReq ("plugin " ++ step.Plugin ++ " is not found"))) ∧
          scansCreated (create m (some raw) u now db fresh).calls = [] ∧
          (create m (some raw) u now db fresh).db = db) ∧
      (∀ pl, m.PluginsGetByNameVersion db name version = .ok pl →
        (∀ st ∈ post, (resolvedPlugin m db st).isSome = true) →
        ∃ sc sess, scansCreated (create m (some raw) u now db fresh).calls = [sc] ∧
          sc.Sessions[pre.length]? = some sess ∧ sess.Step = step ∧ sess.Plugin = pl.Id) := by
  have hsome : refParts step.Plugin ≠ none := fun h => (refParts_eq_none_iff _).mp h hsep
  obtain ⟨⟨name, version⟩, hparts⟩ := Option.ne_none_iff_exists'.mp hsome
  obtain ⟨rest, hsplit⟩ := (refParts_eq_some_iff _ _ _).mp hparts
  have hstep := create_at_step m raw u now db fresh hproj htar hown hplan htype hwf hpre
  rw [sessionsLoop_cons_parts m db now step post _ _ _ name version hparts] at hstep
  refine ⟨name, version, rest, hsplit, ?_, ?_, ?_⟩
  · cases hl : m.PluginsGetByNameVersion db name version with
    | error e =>
      rw [hl] at hstep
      by_cases hnf : IsNotFound e = true
      · simp [hstep, hnf]
      · simp [hstep, hnf]
    | ok pl =>
      rw [hl] at hstep
      dsimp only at hstep
      rcases sessionsLoop_cases m db now post
          (loopSessions m db now fresh pre ++
            [{ Id := m.NewId (fresh + pre.length), Step := step, Plugin := pl.Id,
               Status := .StatusCreated,
               Dates := { Created := some now, Updated := some now } }])
          (fresh + pre.length + 1)
          (validationCalls raw ++ loopCalls pre ++ [.PluginsGetByNameVersion name version, .NewId])
        with ⟨out, f1, c1, heq, _, _, hpfx, _⟩ | ⟨heq, _⟩
      · rw [heq] at hstep
        rw [hstep]
        obtain ⟨ext, rfl⟩ := hpfx
        simp
      · rw [heq] at hstep
        rw [hstep, persist_calls]
        simp
  · intro e hl hnf
    rw [hl] at hstep
    simp only [hnf, if_true] at hstep
    rw [hstep]
    refine ⟨rfl, ?_, rfl⟩
    simp [scansCreated_append, scansCreated_loopCalls, scansCreated_validationCalls,
      scansCreated]
  · intro pl hl hpost
    have hstepres : resolvedPlugin m db step = some pl := resolvedPlugin_of_lookup m db hparts hl
    have hres : ∀ st ∈ plan.Workflow, (resolvedPlugin m db st).isSome = true := by
      intro st hst
      rw [hwf] at hst
      rcases List.mem_append.mp hst with h | h
      · exact hpre st h
      · rcases List.mem_cons.mp h with rfl | h
        · simp [hstepres]
        · exact hpost st h
    refine ⟨newScan u raw project target (loopSessions m db now fresh plan.Workflow),
      stepSession m db now (fresh + pre.length) step, ?_, ?_, rfl, ?_⟩
    · rw [create_of_resolved m raw u now db fresh hproj htar hown hplan htype hres,
        persist_calls]
      simp [scansCreated_append, scansCreated_loopCalls, scansCreated_validationCalls,
        scansCreated]
    · have hget : plan.Workflow[pre.length]? = some step := by
        rw [hwf, List.getElem?_append_right (Nat.le_refl _)]
        simp
      simp only [newScan, loopSessions_getElem_opt, hget, Option.map_some']
    · simp [stepSession, hstepres]

/-- The three-component reference "nmap:1.0:beta" is looked up as
("nmap", "1.0"). -/
theorem create_looks_up_first_two_components_witness :
    ∃ name version rest, Split "nmap:1.0:beta" ':' = name :: version :: rest ∧
      Call.PluginsGetByNameVersion name version ∈
        (create memManager (some reqA) alice 77 dbExtra 0).calls ∧
      (∀ e, memManager.PluginsGetByNameVersion dbExtra name version = .error e →
        IsNotFound e = true →
        (create memManager (some reqA) alice 77 dbExtra 0).out =
            .respond (.WriteServiceError StatusBadRequest
              (.NewBadReq ("plugin " ++ "nmap:1.0:beta" ++ " is not found"))) ∧
          scansCreated (create memManager (some reqA) alice 77 dbExtra 0).calls = [] ∧
          (create memManager (some reqA) alice 77 dbExtra 0).db = dbExtra) ∧
      (∀ pl, memManager.PluginsGetByNameVersion dbExtra name version = .ok pl →
        (∀ st ∈ ([] : List WorkflowStep), (resolvedPlugin memManager dbExtra st).isSome = true) →
        ∃ sc sess,
          scansCreated (create memManager (some reqA) alice 77 dbExtra 0).calls = [sc] ∧
          sc.Sessions[([] : List WorkflowStep).length]? = some sess ∧
          sess.Step = ⟨"nmap:1.0:beta", "ports", ""⟩ ∧ sess.Plugin = pl.Id) :=
  create_looks_up_first_two_components memManager reqA alice 77 dbExtra 0 P1 T1 LExtra
    [] [] ⟨"nmap:1.0:beta", "ports", ""⟩ rfl rfl rfl rfl rfl rfl (by decide) (by decide)


/-- C3 (as stated, refuted): with the scan collection unavailable the response
of scenario A is 500, not 201, and yet `Scans.Create` has been invoked, once. -/
theorem create_failed_persist_invokes_repository :
    (create memManager (some reqA) alice 77 dbDown 0).out =
        .respond (.WriteServiceError StatusInternalServerError .DbErr) ∧
      (∀ obj, (create memManager (some reqA) alice 77 dbDown 0).out ≠
        .respond (.WriteEntity StatusCreatedCode obj)) ∧
      (scansCreated (create memManager (some reqA) alice 77 dbDown 0).calls).length = 1 :=
  ⟨by decide, fun _ h => by simp [show (create memManager (some reqA) alice 77 dbDown 0).out =
      .respond (.WriteServiceError StatusInternalServerError .DbErr) by decide] at h,
    by decide⟩

/-- C3 (amended): every run of `create` is of one of two kinds.  Either
`Scans.Create` is never invoked, the store state is the one before the call
and the response is not 201; or the request body decoded, all five validation
checks passed and every workflow step resolved, and then `Scans.Create` is
invoked exactly once, as the last call, with a scan that has a session for
every step, the store state is the one `Create` left, and the response is 201
if `Create` succeeded and 500 if it failed.  So a failed validation or an
unresolved step never reaches the repository, no scan with fewer sessions than
steps is ever handed to it, and the only response other than 201 after
`Create` was invoked is the 500 of its own failure. -/
theorem create_invokes_repository_last_or_never {σ : Type} (m : Manager σ)
    (body : Option Scan) (u : User) (now : Time) (db : σ) (fresh : Nat) :
    (scansCreated (create m body u now db fresh).calls = [] ∧
      (create m body u now db fresh).db = db ∧
      ∀ obj, (create m body u now db fresh).out ≠
        .respond (.WriteEntity StatusCreatedCode obj)) ∨
    (∃ raw project target plan sc, body = some raw ∧
      m.ProjectsGetById db raw.Project = .ok project ∧
      m.TargetsGetById db raw.Target = .ok target ∧
      target.Project = project.Id ∧
      m.PlansGetById db raw.Plan = .ok plan ∧
      plan.TargetType = target.Typ ∧
      (∀ st ∈ plan.Workflow, (resolvedPlugin m db st).isSome = true) ∧
      sc.Sessions.length = plan.Workflow.length ∧
      (create m body u now db fresh).calls =
        validationCalls raw ++ loopCalls plan.Workflow ++ [.ScansCreate sc] ∧
      scansCreated (create m body u now db fresh).calls = [sc] ∧
      (create m body u now db fresh).db = (m.ScansCreate db sc).2 ∧
      (create m body u now db fresh).out =
        match (m.ScansCreate db sc).1 with
        | .ok obj => .respond (.WriteEntity StatusCreatedCode obj)
        | .error _ => .respond (.WriteServiceError StatusInternalServerError .DbErr)) := by
  cases body with
  | none =>
    left
    refine ⟨rfl, rfl, ?_⟩
    intro obj h
    simp [create] at h
  | some raw =>
    cases hproj : m.ProjectsGetById db raw.Project with
    | error e =>
      left
      simp [create, hproj, scansCreated]
    | ok project =>
      cases htar : m.TargetsGetById db raw.Target with
      | error e =>
        left
        simp [create, hproj, htar, scansCreated]
      | ok target =>
        by_cases hown : target.Project = project.Id
        · cases hplan : m.PlansGetById db raw.Plan with
          | error e =>
            left
            simp [create, hproj, htar, hown, hplan, scansCreated]
          | ok plan =>
            by_cases htype : plan.TargetType = target.Typ
            · have hv := create_of_valid m raw u now db fresh hproj htar hown hplan htype
              rcases sessionsLoop_cases m db now plan.Workflow [] fresh (validationCalls raw)
                with ⟨out, f1, c1, heq, hout, hsc, _, _⟩ | ⟨heq, hall⟩
              · left
                rw [heq] at hv
                rw [hv]
                exact ⟨by rw [hsc]; rfl, rfl, hout⟩
              · right
                rw [heq] at hv
                refine ⟨raw, project, target, plan,
                  newScan u raw project target (loopSessions m db now fresh plan.Workflow),
                  rfl, hproj, htar, hown, hplan, htype, hall, ?_, ?_, ?_, ?_, ?_⟩
                · simp [newScan, loopSessions_length]
                · rw [hv, persist_calls]; simp
                · rw [hv, persist_calls]
                  simp [scansCreated_append, scansCreated_loopCalls,
                    scansCreated_validationCalls, scansCreated]
                · rw [hv, persist_db]; simp
                · rw [hv, persist_out]; simp [created]
            · left
              simp [create, hproj, htar, hown, hplan, htype, scansCreated]
        · left
          simp [create, hproj, htar, hown, scansCreated]

/-- Scenario B and scenario A side by side: the run that panics never reaches
the repository, the run that succeeds reaches it once, last. -/
theorem create_invokes_repository_last_or_never_witness :
    ((scansCreated (create memManager (some reqA) alice 77 dbB 0).calls = [] ∧
      (create memManager (some reqA) alice 77 dbB 0).db = dbB ∧
      ∀ obj, (create memManager (some reqA) alice 77 dbB 0).out ≠
        .respond (.WriteEntity StatusCreatedCode obj)) ∨
    (∃ raw project target plan sc, some reqA = some raw ∧
      memManager.ProjectsGetById dbB raw.Project = .ok project ∧
      memManager.TargetsGetById dbB raw.Target = .ok target ∧
      target.Project = project.Id ∧
      memManager.PlansGetById dbB raw.Plan = .ok plan ∧
      plan.TargetType = target.Typ ∧
      (∀ st ∈ plan.Workflow, (resolvedPlugin memManager dbB st).isSome = true) ∧
      sc.Sessions.length = plan.Workflow.length ∧
      (create memManager (some reqA) alice 77 dbB 0).calls =
        validationCalls raw ++ loopCalls plan.Workflow ++ [.ScansCreate sc] ∧
      scansCreated (create memManager (some reqA) alice 77 dbB 0).calls = [sc] ∧
      (create memManager (some reqA) alice 77 dbB 0).db = (memManager.ScansCreate dbB sc).2 ∧
      (create memManager (some reqA) alice 77 dbB 0).out =
        match (memManager.ScansCreate dbB sc).1 with
        | .ok obj => .respond (.WriteEntity StatusCreatedCode obj)
        | .error _ => .respond (.WriteServiceError StatusInternalServerError .DbErr))) ∧
      scansCreated (create memManager (some reqA) alice 77 dbB 0).calls = [] :=
  ⟨create_invokes_repository_last_or_never memManager (some reqA) alice 77 dbB 0, by decide⟩

/-! ## Results on `TakeScan`, `get` and `delete` -/

/-- C9: a path id that fails the id predicate gets 400 with no repository
query; a well-formed id the repository reports as not found gets 404; any
other repository error gets 500; in these three cases the wrapped handler
plays no part in the result.  When the lookup succeeds the result is that of
the wrapped handler applied, once, to the scan the repository returned, and
for `get` that is a response carrying this very scan. -/
theorem TakeScan_cases {σ : Type} (m : Manager σ) (fn : Scan → σ → Nat → List Call → Run σ)
    (id : String) (db : σ) (fresh : Nat) :
    (m.IsId id = false →
      TakeScan m fn id db fresh =
        ⟨.respond (.WriteServiceError StatusBadRequest .IdHexErr), db, fresh, []⟩) ∧
    (∀ e, m.IsId id = true → m.ScansGetById db id = .error e → IsNotFound e = true →
      TakeScan m fn id db fresh =
        ⟨.respond (.WriteErrorString StatusNotFound "Not found"), db, fresh,
          [.ScansGetById id]⟩) ∧
    (∀ e, m.IsId id = true → m.ScansGetById db id = .error e → IsNotFound e = false →
      TakeScan m fn id db fresh =
        ⟨.respond (.WriteServiceError StatusInternalServerError .DbErr), db, fresh,
          [.ScansGetById id]⟩) ∧
    (∀ obj, m.IsId id = true → m.ScansGetById db id = .ok obj →
      TakeScan m fn id db fresh = fn obj db fresh [.ScansGetById id] ∧
      TakeScan m (get m) id db fresh =
        ⟨.respond (.WriteEntity StatusOK obj), db, fresh, [.ScansGetById id]⟩) := by
  refine ⟨?_, ?_, ?_, ?_⟩
  · intro h
    simp [TakeScan, h]
  · intro e h1 h2 h3
    simp [TakeScan, h1, h2, h3]
  · intro e h1 h2 h3
    simp [TakeScan, h1, h2, h3]
  · intro obj h1 h2
    simp [TakeScan, h1, h2, get]

/-- Scenario D: GET with the id "not-an-id" is answered 400 without a lookup;
GET with a well-formed id that is not stored is answered 404. -/
theorem TakeScan_cases_witness :
    TakeScan memManager (get memManager) "not-an-id" dbScan 0 =
        ⟨.respond (.WriteServiceError StatusBadRequest .IdHexErr), dbScan, 0, []⟩ ∧
      TakeScan memManager (get memManager) (hexId 5000) dbScan 0 =
        ⟨.respond (.WriteErrorString StatusNotFound "Not found"), dbScan, 0,
          [.ScansGetById (hexId 5000)]⟩ ∧
      TakeScan memManager (get memManager) (hexId 4096) dbScan 0 =
        ⟨.respond (.WriteEntity StatusOK scanA), dbScan, 0, [.ScansGetById (hexId 4096)]⟩ :=
  ⟨(TakeScan_cases memManager (get memManager) "not-an-id" dbScan 0).1 (by decide),
    (TakeScan_cases memManager (get memManager) (hexId 5000) dbScan 0).2.1 .notFound
      (by decide) rfl rfl,
    ((TakeScan_cases memManager (get memManager) (hexId 4096) dbScan 0).2.2.2 scanA
      (by decide) rfl).2⟩

/-- Successive deletes when the repository does its part: an id reported as
not found is answered 404 every time, and a stored scan whose removal takes
effect (a later lookup of the id reports not found) is answered 204 once and
404 from then on. -/
theorem deleteRepeatedly_of_effective_remove {σ : Type} (m : Manager σ) (id : String) (db : σ)
    (fresh : Nat) (hid : m.IsId id = true) :
    (∀ e, m.ScansGetById db id = .error e → IsNotFound e = true →
      ∀ n, deleteRepeatedly m id n db fresh =
        List.replicate n (.respond (.WriteErrorString StatusNotFound "Not found"))) ∧
    (∀ obj, m.ScansGetById db id = .ok obj →
      (∃ e, m.ScansGetById (m.ScansRemove db obj).2 id = .error e ∧ IsNotFound e = true) →
      ∀ n, deleteRepeatedly m id (n + 1) db fresh =
        .respond (.WriteHeader StatusNoContent) ::
          List.replicate n (.respond (.WriteErrorString StatusNotFound "Not found"))) := by
  have absent : ∀ (db : σ) (e : Err), m.ScansGetById db id = .error e → IsNotFound e = true →
      ∀ n, deleteRepeatedly m id n db fresh =
        List.replicate n (.respond (.WriteErrorString StatusNotFound "Not found")) := by
    intro db e hget hnf n
    have hrun : TakeScan m (delete m) id db fresh =
        ⟨.respond (.WriteErrorString StatusNotFound "Not found"), db, fresh,
          [.ScansGetById id]⟩ := by
      simp [TakeScan, hid, hget, hnf]
    induction n with
    | zero => rfl
    | succ n ih =>
      simp only [deleteRepeatedly, hrun, ih, List.replicate_succ]
  refine ⟨absent db, ?_⟩
  intro obj hget hrm n
  obtain ⟨e, hget2, hnf⟩ := hrm
  have hrun : TakeScan m (delete m) id db fresh =
      ⟨.respond (.WriteHeader StatusNoContent), (m.ScansRemove db obj).2, fresh,
        [.ScansGetById id, .ScansRemove obj]⟩ := by
    simp [TakeScan, hid, hget, delete]
  simp only [deleteRepeatedly, hrun, absent _ e hget2 hnf n]

/-- C10 (what the code does instead): `delete` writes 204 whatever
`Scans.Remove` returns, since line 278 discards its result.  For a well-formed
id of a stored scan, in a repository whose `Remove` fails and leaves the store
as it is, each of `n` successive deletes is answered 204: the first reports a
success although nothing was removed, and no later delete is answered 404. -/
theorem delete_answers_204_when_remove_fails {σ : Type} (m : Manager σ) (id : String)
    (db : σ) (fresh : Nat) (obj : Scan) (err : Err)
    (hid : m.IsId id = true)
    (hget : m.ScansGetById db id = .ok obj)
    (hfail : m.ScansRemove db obj = (some err, db)) :
    TakeScan m (delete m) id db fresh =
        ⟨.respond (.WriteHeader StatusNoContent), db, fresh,
          [.ScansGetById id, .ScansRemove obj]⟩ ∧
      ∀ n, deleteRepeatedly m id n db fresh =
        List.replicate n (.respond (.WriteHeader StatusNoContent)) := by
  have hrun : TakeScan m (delete m) id db fresh =
      ⟨.respond (.WriteHeader StatusNoContent), db, fresh,
        [.ScansGetById id, .ScansRemove obj]⟩ := by
    simp [TakeScan, hid, hget, delete, hfail]
  refine ⟨hrun, ?_⟩
  intro n
  induction n with
  | zero => rfl
  | succ n ih => simp only [deleteRepeatedly, hrun, ih, List.replicate_succ]

/-- Property P5 with a store that rejects the removal: `Remove` returns an
error, the scan stays, and three deletes of its id are answered 204, 204, 204. -/
theorem delete_answers_204_when_remove_fails_witness :
    (removeFailing.ScansRemove dbScan scanA).1 = some (.other "storage unavailable") ∧
      removeFailing.ScansGetById (removeFailing.ScansRemove dbScan scanA).2 (hexId 4096) =
        .ok scanA ∧
      (TakeScan removeFailing (delete removeFailing) (hexId 4096) dbScan 0 =
          ⟨.respond (.WriteHeader StatusNoContent), dbScan, 0,
            [.ScansGetById (hexId 4096), .ScansRemove scanA]⟩ ∧
        ∀ n, deleteRepeatedly removeFailing (hexId 4096) n dbScan 0 =
          List.replicate n (.respond (.WriteHeader StatusNoContent))) :=
  ⟨rfl, rfl,
    delete_answers_204_when_remove_fails removeFailing (hexId 4096) dbScan 0 scanA
      (.other "storage unavailable") (by decide) rfl rfl⟩

end Bearded
